import Mathlib

/-!
# Streaming conversation engine: a shallow embedding

This file embeds the agent-chat feature of the repository: the mock chat
service (`chat-service.ts`) and the intent handlers plus streaming callbacks of
the chat view (`agent-chat-view.tsx`).  Timestamps are modelled as natural
numbers (the source compares ISO strings through Date.getTime), generated ids
(nanoid) and the clock are passed in as arguments, and the JavaScript record of
message lists keyed by chat id is an association list in key-insertion order,
matching string-keyed object iteration order.  JavaScript's stable
Array.prototype.sort is modelled by List.mergeSort.
-/

namespace AgentChat

/-! ## Data model (types/api.ts) -/

inductive Role where
  | user
  | agent
  | system
deriving DecidableEq, Repr

inductive MsgStatus where
  | pending
  | sent
  | delivered
  | error
  | streaming
deriving DecidableEq, Repr

structure AgentMessage where
  id : String
  chatId : String
  role : Role
  content : String
  timestamp : Nat
  status : Option MsgStatus := none
deriving DecidableEq, Repr

structure AgentChatSession where
  id : String
  title : String
  createdAt : Nat
  lastMessageAt : Nat
  lastMessageSnippet : Option String := none
deriving DecidableEq, Repr

inductive ChunkType where
  | text_chunk
  | form_definition
  | error_chunk
  | end_of_stream
deriving DecidableEq, Repr

structure StreamedMessageChunk where
  type : ChunkType
  content : Option String := none
  error : Option String := none
  messageId : Option String := none
deriving DecidableEq, Repr

/-- JavaScript truthiness of a string-or-null value: null and the empty string
are falsy. -/
def strTruthy : Option String → Bool
  | some s => s != ""
  | none => false

/-- JavaScript String.prototype.trim, modelled structurally on the character
list (String.trim in core is extensionally the same but is not used because its
implementation works on byte positions). -/
def jsTrim (s : String) : String :=
  ⟨((s.data.dropWhile Char.isWhitespace).reverse.dropWhile Char.isWhitespace).reverse⟩

/-! ## The message store (the mockMessages record in chat-service.ts) -/

abbrev MessageStore := List (String × List AgentMessage)

/-- First entry for a chat id, as string-keyed object lookup. -/
def getEntry (store : MessageStore) (chatId : String) : Option (List AgentMessage) :=
  (store.find? (fun e => e.1 == chatId)).map (fun e => e.2)

/-- getMessages from chat-service.ts: the chat's message list, or [] for an
unknown chat id. -/
def getMessages (store : MessageStore) (chatId : String) : List AgentMessage :=
  (getEntry store chatId).getD []

/-- mockMessages[chatId].push(m), creating the entry (at the end, as a fresh
object key) when the chat id is absent. -/
def storeAppend (chatId : String) (m : AgentMessage) : MessageStore → MessageStore
  | [] => [(chatId, [m])]
  | e :: rest =>
    if e.1 == chatId then (e.1, e.2 ++ [m]) :: rest
    else e :: storeAppend chatId m rest

/-- Replace the first element satisfying p, as the source's findIndex followed
by an index-guarded map. -/
def replaceFirst (p : α → Bool) (f : α → α) : List α → List α
  | [] => []
  | a :: as => if p a then f a :: as else a :: replaceFirst p f as

/-! ## The session directory (the mockSessions array in chat-service.ts) -/

/-- The comparator (a, b) => getTime(b.lastMessageAt) - getTime(a.lastMessageAt)
run through JavaScript's stable sort: a stable descending sort on
lastMessageAt. -/
def sortSessions (l : List AgentChatSession) : List AgentChatSession :=
  l.mergeSort (fun a b => decide (b.lastMessageAt ≤ a.lastMessageAt))

/-- The directory-touch pattern shared by sendMessage, its end_of_stream branch
and resendMessage in chat-service.ts: find the session; when it is listed,
update lastMessageAt and the snippet and re-sort; when it is not listed, do
nothing. -/
def touch (sessionId : String) (newLastMessageAt : Nat) (snippet : String)
    (sessions : List AgentChatSession) : List AgentChatSession :=
  if sessions.any (fun s => s.id == sessionId) then
    sortSessions (replaceFirst (fun s => s.id == sessionId)
      (fun s => { s with
        lastMessageAt := newLastMessageAt,
        lastMessageSnippet := some snippet }) sessions)
  else sessions

structure ServiceState where
  mockSessions : List AgentChatSession
  mockMessages : MessageStore
deriving DecidableEq, Repr

/-! ## chat-service.ts operations -/

/-- The synchronous prefix of sendMessage in chat-service.ts: build the user
message with status sent, push it into the store (creating the chat entry when
needed), and touch the session with the user snippet.  nanoid() and the clock
are the arguments msgId and now. -/
def sendMessageSync (chatId content msgId : String) (now : Nat) (st : ServiceState) :
    AgentMessage × ServiceState :=
  let userMessage : AgentMessage :=
    { id := msgId, chatId := chatId, role := Role.user, content := content,
      timestamp := now, status := some MsgStatus.sent }
  (userMessage,
   { mockSessions :=
       touch chatId now ("User: " ++ content.take 30 ++ "...") st.mockSessions,
     mockMessages := storeAppend chatId userMessage st.mockMessages })

/-- editMessage from chat-service.ts: scan the chats in insertion order; in a
chat whose first message with the given id exists, edit it in place only when
that message has role user, otherwise keep scanning the remaining chats; return
the updated message, or null when no chat yields an edit. -/
def editMessageStore (messageId newContent : String) (now : Nat) :
    MessageStore → Option AgentMessage × MessageStore
  | [] => (none, [])
  | e :: rest =>
    match e.2.find? (fun m => m.id == messageId) with
    | some m =>
      if m.role = Role.user then
        let upd := { m with content := newContent, timestamp := now }
        (some upd,
         (e.1, replaceFirst (fun m2 => m2.id == messageId) (fun _ => upd) e.2) :: rest)
      else
        let r := editMessageStore messageId newContent now rest
        (r.1, e :: r.2)
    | none =>
      let r := editMessageStore messageId newContent now rest
      (r.1, e :: r.2)

/-- editMessage at the service-state level; the session directory is not an
input of the edit path in the source and is returned unchanged. -/
def editMessage (messageId newContent : String) (now : Nat) (st : ServiceState) :
    Option AgentMessage × ServiceState :=
  let r := editMessageStore messageId newContent now st.mockMessages
  (r.1, { st with mockMessages := r.2 })

/-- The scan at the top of resendMessage: the first chat holding a message with
the id, together with that message. -/
def findMessage (messageId : String) : MessageStore → Option (String × AgentMessage)
  | [] => none
  | e :: rest =>
    match e.2.find? (fun m => m.id == messageId) with
    | some m => some (e.1, m)
    | none => findMessage messageId rest

/-- The acknowledgment message resendMessage builds from the original. -/
def reAck (chatId : String) (original : AgentMessage) (newId : String) (now : Nat) :
    AgentMessage :=
  { id := newId, chatId := chatId, role := Role.agent,
    content := "(Re-Ack) Agent received: \"" ++ original.content.take 30 ++ "...\"",
    timestamp := now, status := none }

/-- resendMessage from chat-service.ts: locate the message anywhere in the
store; when found, push an agent acknowledgment into its chat and touch the
session with the acknowledgment snippet; when not found, return null and change
nothing. -/
def resendMessage (messageId newId : String) (now : Nat) (st : ServiceState) :
    Option AgentMessage × ServiceState :=
  match findMessage messageId st.mockMessages with
  | some found =>
    let agentResponse := reAck found.1 found.2 newId now
    (some agentResponse,
     { mockSessions :=
         touch found.1 now (agentResponse.content.take 50) st.mockSessions,
       mockMessages := storeAppend found.1 agentResponse st.mockMessages })
  | none => (none, st)

/-! ## Stream assembly (agent-chat-view.tsx callbacks) -/

/-- msg.id === chunk.messageId && msg.role === 'agent', the predicate of the
findIndex call in onStreamUpdate. -/
def isTargetAgentMsg (chunk : StreamedMessageChunk) (m : AgentMessage) : Bool :=
  chunk.messageId == some m.id && m.role == Role.agent

/-- The onStreamUpdate callback in agent-chat-view.tsx: on a text chunk, append
the fragment to the first agent message carrying the chunk's message id
(refreshing its timestamp); when no such message exists and both the chunk's
messageId and the captured currentChatId are truthy, append a fresh streaming
agent message; every other chunk type falls through the TODO branch and leaves
the list unchanged. -/
def onStreamUpdate (currentChatId : Option String) (now : Nat)
    (msgs : List AgentMessage) (chunk : StreamedMessageChunk) : List AgentMessage :=
  if chunk.type = ChunkType.text_chunk then
    if msgs.any (isTargetAgentMsg chunk) then
      replaceFirst (isTargetAgentMsg chunk)
        (fun m => { m with
          content := m.content ++ chunk.content.getD "",
          timestamp := now }) msgs
    else if strTruthy chunk.messageId && strTruthy currentChatId then
      msgs ++ [{ id := chunk.messageId.getD "", chatId := currentChatId.getD "",
                 role := Role.agent, content := chunk.content.getD "",
                 timestamp := now, status := some MsgStatus.streaming }]
    else msgs
  else msgs

/-- The message-list part of the onStreamEnd callback: overwrite the agent
message's content with the final streamed content and mark it delivered. -/
def onStreamEnd (finalContent agentMessageId : String) (now : Nat)
    (msgs : List AgentMessage) : List AgentMessage :=
  msgs.map (fun m =>
    if m.id == agentMessageId && m.role == Role.agent then
      { m with content := finalContent, status := some MsgStatus.delivered,
               timestamp := now }
    else m)

/-- The currentAgentContent accumulation in sendMessage's interval loop: a text
chunk with truthy content is appended, every other chunk is skipped. -/
def accumAgentContent (chunks : List StreamedMessageChunk) : String :=
  chunks.foldl (fun acc c =>
    if c.type == ChunkType.text_chunk && strTruthy c.content then
      acc ++ c.content.getD ""
    else acc) ""

def mkTextChunk (messageId fragment : String) : StreamedMessageChunk :=
  { type := ChunkType.text_chunk, content := some fragment,
    messageId := some messageId }

/-- The concatenation of text fragments in arrival order. -/
def concatList : List String → String
  | [] => ""
  | f :: fs => f ++ concatList fs

/-! ## Engine state and intent handlers (agent-chat-view.tsx) -/

structure ViewState where
  chatSessions : List AgentChatSession
  currentChatId : Option String
  messages : List AgentMessage
  newMessage : String
  editingMessage : Option AgentMessage
  isStreaming : Bool
deriving DecidableEq, Repr

structure EngineState where
  svc : ServiceState
  view : ViewState
deriving DecidableEq, Repr

/-- handleSelectChat: ignored while streaming; otherwise switch the active
session and leave edit mode. -/
def selectChatStep (sessionId : String) (s : EngineState) : EngineState :=
  if s.view.isStreaming then s
  else { s with view := { s.view with
    currentChatId := some sessionId, editingMessage := none } }

/-- handleEditMessage: ignored while streaming; enters edit mode only for a
user message, loading its content into the composer. -/
def editStartStep (m : AgentMessage) (s : EngineState) : EngineState :=
  if s.view.isStreaming then s
  else if m.role = Role.user then
    { s with view := { s.view with
      editingMessage := some m, newMessage := m.content } }
  else s

/-- The Cancel button of the edit composer: clears edit mode and the draft. -/
def cancelEditStep (s : EngineState) : EngineState :=
  { s with view := { s.view with editingMessage := none, newMessage := "" } }

/-- The guard at the top of handleSendMessage:
!newMessage.trim() || !currentChatId || isStreaming || editingMessage. -/
def sendGuardFails (v : ViewState) : Bool :=
  !(jsTrim v.newMessage != "") || !(strTruthy v.currentChatId)
    || v.isStreaming || v.editingMessage.isSome

/-- The body of handleSendMessage's guard branch.  Its only effect is the
edit-save path, which runs whenever editingMessage and currentChatId are truthy
(the lock is not consulted there): the service edit is applied, an updated
message is swapped into the view list, and the composer is cleared. -/
def sendGuardBranch (now : Nat) (s : EngineState) : EngineState :=
  match s.view.editingMessage with
  | some em =>
    if strTruthy s.view.currentChatId then
      let r := editMessage em.id s.view.newMessage now s.svc
      let msgs :=
        match r.1 with
        | some upd => s.view.messages.map (fun m => if m.id == upd.id then upd else m)
        | none => s.view.messages
      { svc := r.2,
        view := { s.view with
          messages := msgs, newMessage := "", editingMessage := none } }
    else s
  | none => s

/-- handleSendMessage up to the resolution of the awaited sendMessage call: the
guard, the optimistic append, the service call and the confirmation
bookkeeping run without interleaving; the streamed chunks arrive as later
events.  Fresh ids and the clock are arguments. -/
def sendOkStep (tempId msgId : String) (now : Nat) (s : EngineState) : EngineState :=
  if sendGuardFails s.view then sendGuardBranch now s
  else
    let chatId := s.view.currentChatId.getD ""
    let optimistic : AgentMessage :=
      { id := tempId, chatId := chatId, role := Role.user,
        content := s.view.newMessage, timestamp := now,
        status := some MsgStatus.pending }
    let r := sendMessageSync chatId s.view.newMessage msgId now s.svc
    let confirmed := r.1
    { svc := r.2,
      view := { s.view with
        messages := (s.view.messages ++ [optimistic]).map (fun m =>
          if m.id == tempId then { confirmed with status := some MsgStatus.delivered }
          else m),
        chatSessions := sortSessions (s.view.chatSessions.map (fun sess =>
          if sess.id == chatId then
            { sess with
              lastMessageAt := confirmed.timestamp,
              lastMessageSnippet := some ("User: " ++ confirmed.content.take 30 ++ "...") }
          else sess)),
        newMessage := "", isStreaming := true } }

/-- handleSendMessage when the awaited service call rejects: the optimistic
append has happened, then the catch branch marks the placeholder error with an
appended note and releases the lock; the service state and the session list are
untouched. -/
def sendFailStep (tempId : String) (now : Nat) (s : EngineState) : EngineState :=
  if sendGuardFails s.view then sendGuardBranch now s
  else
    let chatId := s.view.currentChatId.getD ""
    let optimistic : AgentMessage :=
      { id := tempId, chatId := chatId, role := Role.user,
        content := s.view.newMessage, timestamp := now,
        status := some MsgStatus.pending }
    { svc := s.svc,
      view := { s.view with
        messages := (s.view.messages ++ [optimistic]).map (fun m =>
          if m.id == tempId then
            { m with status := some MsgStatus.error,
                     content := m.content ++ "\n(Failed to send)" }
          else m),
        newMessage := "", isStreaming := false } }

/-- The onStreamError callback: mark the placeholder error with the carried
description appended, and release the lock; the session list and the service
state are not touched. -/
def streamErrStep (tempId errMsg : String) (s : EngineState) : EngineState :=
  { s with view := { s.view with
      messages := s.view.messages.map (fun m =>
        if m.id == tempId then
          { m with status := some MsgStatus.error,
                   content := m.content ++ "\n(Error sending: " ++ errMsg ++ ")" }
        else m),
      isStreaming := false } }

/-- A chunk arrival folded by the onStreamUpdate callback. -/
def chunkStep (chunk : StreamedMessageChunk) (now : Nat) (s : EngineState) : EngineState :=
  { s with view := { s.view with
      messages := onStreamUpdate s.view.currentChatId now s.view.messages chunk } }

/-- The onStreamEnd callback: finalize the agent message, touch the current
session entry in the view list, re-sort, and release the lock. -/
def streamEndStep (finalContent agentMessageId : String) (now : Nat)
    (s : EngineState) : EngineState :=
  { s with view := { s.view with
      messages := onStreamEnd finalContent agentMessageId now s.view.messages,
      chatSessions :=
        if strTruthy s.view.currentChatId then
          sortSessions (s.view.chatSessions.map (fun sess =>
            if sess.id == s.view.currentChatId.getD "" then
              { sess with
                lastMessageAt := now,
                lastMessageSnippet := some ("Agent: " ++ finalContent.take 30 ++ "...") }
            else sess))
        else s.view.chatSessions,
      isStreaming := false } }

/-- handleResendMessage, which runs to completion in one dispatch: guarded on
the lock and an active chat, briefly holds the lock, appends the service's
acknowledgment to the view list, updates the current session entry, and
releases the lock. -/
def resendStep (messageId newId : String) (now : Nat) (s : EngineState) : EngineState :=
  if s.view.isStreaming || !(strTruthy s.view.currentChatId) then s
  else
    let r := resendMessage messageId newId now s.svc
    match r.1 with
    | some resp =>
      { svc := r.2,
        view := { s.view with
          messages := s.view.messages ++ [resp],
          chatSessions := sortSessions (s.view.chatSessions.map (fun sess =>
            if sess.id == s.view.currentChatId.getD "" then
              { sess with
                lastMessageAt := resp.timestamp,
                lastMessageSnippet := some (resp.content.take 50) }
            else sess)),
          isStreaming := false } }
    | none => { svc := r.2, view := { s.view with isStreaming := false } }

/-- One engine transition: an intent dispatched by the user or a streaming
event delivered by the channel. -/
inductive Step : EngineState → EngineState → Prop where
  | selectChat (sid : String) (s : EngineState) : Step s (selectChatStep sid s)
  | editStart (m : AgentMessage) (s : EngineState) : Step s (editStartStep m s)
  | cancelEdit (s : EngineState) : Step s (cancelEditStep s)
  | sendOk (tempId msgId : String) (now : Nat) (s : EngineState) :
      Step s (sendOkStep tempId msgId now s)
  | sendFail (tempId : String) (now : Nat) (s : EngineState) :
      Step s (sendFailStep tempId now s)
  | streamErr (tempId errMsg : String) (s : EngineState) :
      Step s (streamErrStep tempId errMsg s)
  | chunk (c : StreamedMessageChunk) (now : Nat) (s : EngineState) :
      Step s (chunkStep c now s)
  | streamEnd (fc mid : String) (now : Nat) (s : EngineState) :
      Step s (streamEndStep fc mid now s)
  | resend (mid newId : String) (now : Nat) (s : EngineState) :
      Step s (resendStep mid newId now s)

/-- The component mounts with the lock released and no edit in progress. -/
def Init (s : EngineState) : Prop :=
  s.view.isStreaming = false ∧ s.view.editingMessage = none

def Reachable (s : EngineState) : Prop :=
  ∃ s0, Init s0 ∧ Relation.ReflTransGen Step s0 s

/-! ## Derived notions -/

/-- The directory ordering: lastMessageAt is non-increasing down the list. -/
def SortedDesc (l : List AgentChatSession) : Prop :=
  l.Pairwise (fun a b => b.lastMessageAt ≤ a.lastMessageAt)

/-- The in-progress assembled agent message the onStreamUpdate fold maintains. -/
def streamingMsg (M chat : String) (t : Nat) (c : String) : AgentMessage :=
  { id := M, chatId := chat, role := Role.agent, content := c, timestamp := t,
    status := some MsgStatus.streaming }

/-- The delivered agent message after the end-of-stream signal. -/
def deliveredMsg (M chat : String) (t : Nat) (c : String) : AgentMessage :=
  { id := M, chatId := chat, role := Role.agent, content := c, timestamp := t,
    status := some MsgStatus.delivered }

/-- While the lock is held, no edit is in progress. -/
def LockInv (s : EngineState) : Prop :=
  s.view.isStreaming = true → s.view.editingMessage = none

/-! ## Concrete states used for instantiation -/

/-- A freshly mounted view with one selected chat and a non-empty draft. -/
def engine0 : EngineState :=
  { svc := { mockSessions := [], mockMessages := [] },
    view := { chatSessions := [], currentChatId := some "s1", messages := [],
              newMessage := "hello", editingMessage := none, isStreaming := false } }

/-- A stored, delivered user message. -/
def m1msg : AgentMessage :=
  { id := "m1", chatId := "s1", role := Role.user, content := "a", timestamp := 0,
    status := some MsgStatus.delivered }

/-- A state with the single-flight lock held and an edit of m1msg in progress,
with draft "b". -/
def lockedEditState : EngineState :=
  { svc := { mockSessions := [], mockMessages := [("s1", [m1msg])] },
    view := { chatSessions := [], currentChatId := some "s1", messages := [m1msg],
              newMessage := "b", editingMessage := some m1msg, isStreaming := true } }

/-- An agent message mid-stream for message id a1. -/
def streamingA1 : AgentMessage := streamingMsg "a1" "s1" 0 "Hi "

/-- An error chunk for the in-flight agent message a1. -/
def errChunk : StreamedMessageChunk :=
  { type := ChunkType.error_chunk, error := some "boom", messageId := some "a1" }

/-- A listed session. -/
def sessA : AgentChatSession :=
  { id := "s1", title := "A", createdAt := 0, lastMessageAt := 4,
    lastMessageSnippet := none }

/-- A service state whose store holds one user message in a listed session. -/
def svc7 : ServiceState :=
  { mockSessions := [sessA], mockMessages := [("s1", [m1msg])] }

/-- A stored agent message. -/
def agentMsg2 : AgentMessage :=
  { id := "a9", chatId := "s1", role := Role.agent, content := "agent says",
    timestamp := 0, status := none }

/-- A service state whose store holds only an agent message. -/
def svc7b : ServiceState :=
  { mockSessions := [], mockMessages := [("s1", [agentMsg2])] }

/-- A message stored under a chat id the directory never lists. -/
def ghostMsg : AgentMessage :=
  { id := "g1", chatId := "ghost", role := Role.user, content := "hi",
    timestamp := 0, status := some MsgStatus.delivered }

/-- A service state with a populated chat that has no directory entry. -/
def ghostState : ServiceState :=
  { mockSessions := [], mockMessages := [("ghost", [ghostMsg])] }

/-- A stored user message in a listed session sB. -/
def sessB : AgentChatSession :=
  { id := "sB", title := "B", createdAt := 0, lastMessageAt := 2,
    lastMessageSnippet := none }

def userMsgB : AgentMessage :=
  { id := "mB", chatId := "sB", role := Role.user, content := "resend me",
    timestamp := 1, status := some MsgStatus.delivered }

def svc8 : ServiceState :=
  { mockSessions := [sessB], mockMessages := [("sB", [userMsgB])] }

/-- A stored system message, exercising resend on a non-user, non-agent author. -/
def sysMsg : AgentMessage :=
  { id := "y1", chatId := "sy", role := Role.system, content := "sys note",
    timestamp := 0, status := none }

def svc10 : ServiceState :=
  { mockSessions := [], mockMessages := [("sy", [sysMsg])] }

/-! ## Helper lemmas -/

theorem replaceFirst_append_of_not {α : Type} (p : α → Bool) (f : α → α)
    (l r : List α) (h : ∀ a ∈ l, p a = false) :
    replaceFirst p f (l ++ r) = l ++ replaceFirst p f r := by
  induction l with
  | nil => rfl
  | cons a as ih =>
    have ha : p a = false := h a (by simp)
    simp [replaceFirst, ha]
    exact ih (fun a2 ha2 => h a2 (by simp [ha2]))

theorem replaceFirst_cons_of {α : Type} (p : α → Bool) (f : α → α)
    (a : α) (l : List α) (h : p a = true) :
    replaceFirst p f (a :: l) = f a :: l := by
  simp [replaceFirst, h]

theorem replaceFirst_of_not {α : Type} (p : α → Bool) (f : α → α)
    (l : List α) (h : ∀ a ∈ l, p a = false) :
    replaceFirst p f l = l := by
  have := replaceFirst_append_of_not p f l [] h
  simpa [replaceFirst] using this

theorem map_ite_of_not {α : Type} (p : α → Bool) (f : α → α)
    (l : List α) (h : ∀ a ∈ l, p a = false) :
    l.map (fun a => if p a then f a else a) = l := by
  induction l with
  | nil => rfl
  | cons a as ih =>
    have ha : p a = false := h a (by simp)
    simp [ha]
    exact ih (fun a2 ha2 => h a2 (by simp [ha2]))

theorem find?_append_of_not {α : Type} (p : α → Bool) (l r : List α)
    (h : ∀ a ∈ l, p a = false) :
    (l ++ r).find? p = r.find? p := by
  have hl : l.find? p = none := List.find?_eq_none.mpr (fun a ha => by simp [h a ha])
  simp [List.find?_append, hl]

theorem replaceFirst_exists {α : Type} (p : α → Bool) (f : α → α) :
    ∀ l : List α, (∃ a ∈ l, p a = true) →
      ∃ a ∈ l, p a = true ∧ f a ∈ replaceFirst p f l
  | [], h => by simp at h
  | a :: as, h => by
    by_cases ha : p a = true
    · exact ⟨a, by simp, ha, by simp [replaceFirst, ha]⟩
    · have hnot : p a = false := by simpa using ha
      have has : ∃ a2 ∈ as, p a2 = true := by
        rcases h with ⟨a2, ha2, hp2⟩
        rcases List.mem_cons.mp ha2 with rfl | hmem
        · exact absurd hp2 ha
        · exact ⟨a2, hmem, hp2⟩
      rcases replaceFirst_exists p f as has with ⟨a2, hmem, hp2, hres⟩
      exact ⟨a2, by simp [hmem], hp2, by simp [replaceFirst, hnot, hres]⟩

/-! ## Store lemmas -/

theorem getMessages_storeAppend_self (c : String) (m : AgentMessage) :
    ∀ store : MessageStore,
      getMessages (storeAppend c m store) c = getMessages store c ++ [m]
  | [] => by simp [storeAppend, getMessages, getEntry, List.find?]
  | e :: rest => by
    by_cases he : e.1 = c
    · simp [storeAppend, getMessages, getEntry, List.find?, he]
    · have hbeq : (e.1 == c) = false := by simpa using he
      simp [storeAppend, getMessages, getEntry, List.find?, hbeq]
      exact getMessages_storeAppend_self c m rest

theorem getMessages_storeAppend_other (c c2 : String) (m : AgentMessage)
    (hne : c2 ≠ c) :
    ∀ store : MessageStore,
      getMessages (storeAppend c m store) c2 = getMessages store c2 := by
  have hcc2 : (c == c2) = false := by simpa using hne.symm
  intro store
  induction store with
  | nil => simp [storeAppend, getMessages, getEntry, List.find?, hcc2]
  | cons e rest ih =>
    by_cases he : e.1 = c
    · have heb : (e.1 == c) = true := by simpa using he
      have he2 : (e.1 == c2) = false := by simp [he, hcc2]
      simp [storeAppend, getMessages, getEntry, List.find?, heb, he2]
    · have heb : (e.1 == c) = false := by simpa using he
      by_cases h2 : e.1 = c2
      · have h2b : (e.1 == c2) = true := by simpa using h2
        simp [storeAppend, getMessages, getEntry, List.find?, heb, h2b]
      · have h2b : (e.1 == c2) = false := by simpa using h2
        simpa [storeAppend, getMessages, getEntry, List.find?, heb, h2b] using ih

/-! ## Sorting lemmas -/

theorem sortSessions_sorted (l : List AgentChatSession) :
    SortedDesc (sortSessions l) := by
  have h := @List.sorted_mergeSort AgentChatSession
    (fun a b => decide (b.lastMessageAt ≤ a.lastMessageAt))
    (fun a b c hab hbc => by simp at hab hbc ⊢; omega)
    (fun a b => by simp; omega) l
  exact h.imp (fun hab => by simpa using hab)

theorem sortSessions_perm (l : List AgentChatSession) :
    List.Perm (sortSessions l) l :=
  List.mergeSort_perm l _

theorem sortSessions_stable (l : List AgentChatSession) (t : Nat) :
    (sortSessions l).filter (fun s => s.lastMessageAt == t)
      = l.filter (fun s => s.lastMessageAt == t) := by
  have hsub : List.Sublist (l.filter (fun s => s.lastMessageAt == t)) (sortSessions l) := by
    apply List.sublist_mergeSort
      (fun a b c hab hbc => by simp at hab hbc ⊢; omega)
      (fun a b => by simp; omega)
    · apply List.pairwise_of_forall_mem_list
      intro a ha b hb
      have ha2 := List.of_mem_filter ha
      have hb2 := List.of_mem_filter hb
      simp at ha2 hb2 ⊢
      omega
    · exact List.filter_sublist l
  have hsub2 : List.Sublist (l.filter (fun s => s.lastMessageAt == t))
      ((sortSessions l).filter (fun s => s.lastMessageAt == t)) := by
    have h1 := hsub.filter (fun s => s.lastMessageAt == t)
    rwa [List.filter_filter, (by
      funext s
      simp : (fun s : AgentChatSession =>
        (s.lastMessageAt == t) && (s.lastMessageAt == t)) = fun s => s.lastMessageAt == t)] at h1
  have hlen : ((sortSessions l).filter (fun s => s.lastMessageAt == t)).length
      = (l.filter (fun s => s.lastMessageAt == t)).length := by
    rw [← List.countP_eq_length_filter, ← List.countP_eq_length_filter]
    exact (sortSessions_perm l).countP_eq _
  exact (hsub2.eq_of_length hlen.symm).symm

theorem touch_of_not_mem (sid : String) (ts : Nat) (sn : String)
    (l : List AgentChatSession) (h : ∀ s ∈ l, s.id ≠ sid) :
    touch sid ts sn l = l := by
  have hany : (l.any fun s => s.id == sid) = false := by
    simp [List.any_eq_false]
    intro s hs
    simpa using h s hs
  simp [touch, hany]

theorem touch_exists (sid : String) (ts : Nat) (sn : String)
    (l : List AgentChatSession) (h : ∃ s ∈ l, s.id = sid) :
    ∃ s2 ∈ touch sid ts sn l,
      s2.id = sid ∧ s2.lastMessageAt = ts ∧ s2.lastMessageSnippet = some sn := by
  have hany : (l.any fun s => s.id == sid) = true := by
    rcases h with ⟨s, hs, hid⟩
    exact List.any_eq_true.mpr ⟨s, hs, by simpa using hid⟩
  have hex : ∃ s ∈ l, (s.id == sid) = true := by
    rcases h with ⟨s, hs, hid⟩
    exact ⟨s, hs, by simpa using hid⟩
  rcases replaceFirst_exists (fun s => s.id == sid)
    (fun s => { s with lastMessageAt := ts, lastMessageSnippet := some sn }) l hex
    with ⟨s, hmem, hp, hres⟩
  have htouch : touch sid ts sn l
      = sortSessions (replaceFirst (fun s => s.id == sid)
        (fun s => { s with lastMessageAt := ts, lastMessageSnippet := some sn }) l) := by
    simp [touch, hany]
  refine ⟨{ s with lastMessageAt := ts, lastMessageSnippet := some sn }, ?_,
    by simpa using hp, rfl, rfl⟩
  rw [htouch]
  exact ((sortSessions_perm _).mem_iff).mpr hres

theorem touch_sorted (sid : String) (ts : Nat) (sn : String)
    (l : List AgentChatSession) (h : SortedDesc l) :
    SortedDesc (touch sid ts sn l) := by
  unfold touch
  by_cases hany : (l.any fun s => s.id == sid) = true
  · simp only [hany, if_pos]
    exact sortSessions_sorted _
  · have hfalse : (l.any fun s => s.id == sid) = false := by
      simpa using hany
    simp only [hfalse, Bool.false_eq_true, if_false]
    exact h

/-! ## Stream-assembly lemmas -/

theorem isTargetAgentMsg_mkText (M f : String) (m : AgentMessage) :
    isTargetAgentMsg (mkTextChunk M f) m = true ↔ (m.id = M ∧ m.role = Role.agent) := by
  simp only [isTargetAgentMsg, mkTextChunk, Bool.and_eq_true, beq_iff_eq,
    Option.some.injEq]
  exact ⟨fun h => ⟨h.1.symm, h.2⟩, fun h => ⟨h.1.symm, h.2⟩⟩

theorem isTargetAgentMsg_mkText_false (M f : String) (m : AgentMessage)
    (h : ¬(m.id = M ∧ m.role = Role.agent)) :
    isTargetAgentMsg (mkTextChunk M f) m = false := by
  rcases Bool.eq_false_or_eq_true (isTargetAgentMsg (mkTextChunk M f) m) with hb | hb
  · exact absurd ((isTargetAgentMsg_mkText M f m).mp hb) h
  · exact hb

theorem fold_texts (M chat : String) (t : Nat) :
    ∀ (frags : List String) (acc : String) (msgs : List AgentMessage),
      (∀ m ∈ msgs, ¬(m.id = M ∧ m.role = Role.agent)) →
      ((frags.map (mkTextChunk M)).foldl (onStreamUpdate (some chat) t)
        (msgs ++ [streamingMsg M chat t acc]))
      = msgs ++ [streamingMsg M chat t (acc ++ concatList frags)]
  | [], acc, msgs, _ => by simp [concatList]
  | f :: fs, acc, msgs, hfree => by
    have hone : isTargetAgentMsg (mkTextChunk M f) (streamingMsg M chat t acc) = true := by
      exact (isTargetAgentMsg_mkText M f _).mpr ⟨rfl, rfl⟩
    have hany : ((msgs ++ [streamingMsg M chat t acc]).any
        (isTargetAgentMsg (mkTextChunk M f))) = true := by
      simp [List.any_append, hone]
    have hstep : onStreamUpdate (some chat) t (msgs ++ [streamingMsg M chat t acc])
        (mkTextChunk M f)
        = msgs ++ [streamingMsg M chat t (acc ++ f)] := by
      unfold onStreamUpdate
      rw [if_pos (show (mkTextChunk M f).type = ChunkType.text_chunk from rfl)]
      rw [if_pos hany]
      rw [replaceFirst_append_of_not _ _ _ _
        (fun m hm => isTargetAgentMsg_mkText_false M f m (hfree m hm))]
      rw [replaceFirst_cons_of _ _ _ _ hone]
      rfl
    calc ((f :: fs).map (mkTextChunk M)).foldl (onStreamUpdate (some chat) t)
          (msgs ++ [streamingMsg M chat t acc])
        = (fs.map (mkTextChunk M)).foldl (onStreamUpdate (some chat) t)
          (msgs ++ [streamingMsg M chat t (acc ++ f)]) := by
          simp only [List.map_cons, List.foldl_cons, hstep]
      _ = msgs ++ [streamingMsg M chat t ((acc ++ f) ++ concatList fs)] :=
          fold_texts M chat t fs (acc ++ f) msgs hfree
      _ = msgs ++ [streamingMsg M chat t (acc ++ concatList (f :: fs))] := by
          rw [String.append_assoc]; rfl

theorem fold_texts_from_fresh (M chat : String) (hM : M ≠ "") (hchat : chat ≠ "")
    (t : Nat) (frags : List String) (msgs : List AgentMessage)
    (hfree : ∀ m ∈ msgs, ¬(m.id = M ∧ m.role = Role.agent)) :
    (frags.map (mkTextChunk M)).foldl (onStreamUpdate (some chat) t) msgs
      = msgs ++ (if frags = [] then []
                 else [streamingMsg M chat t (concatList frags)]) := by
  cases frags with
  | nil => simp
  | cons f fs =>
    have hany : (msgs.any (isTargetAgentMsg (mkTextChunk M f))) = false := by
      simp only [List.any_eq_false]
      exact fun m hm => by
        simpa using isTargetAgentMsg_mkText_false M f m (hfree m hm)
    have htr : (strTruthy (mkTextChunk M f).messageId && strTruthy (some chat)) = true := by
      simp [mkTextChunk, strTruthy, hM, hchat]
    have hstep : onStreamUpdate (some chat) t msgs (mkTextChunk M f)
        = msgs ++ [streamingMsg M chat t f] := by
      unfold onStreamUpdate
      rw [if_pos (show (mkTextChunk M f).type = ChunkType.text_chunk from rfl)]
      rw [if_neg (by rw [hany]; exact Bool.false_ne_true), if_pos htr]
      rfl
    simp only [List.map_cons, List.foldl_cons, hstep]
    rw [fold_texts M chat t fs f msgs hfree]
    simp [concatList]

theorem accumAgentContent_go (M : String) :
    ∀ (frags : List String) (acc : String),
      (frags.map (mkTextChunk M)).foldl (fun acc c =>
        if c.type == ChunkType.text_chunk && strTruthy c.content then
          acc ++ c.content.getD ""
        else acc) acc
      = acc ++ concatList frags
  | [], acc => by simp [concatList]
  | f :: fs, acc => by
    simp only [List.map_cons, List.foldl_cons]
    by_cases hf : f = ""
    · rw [if_neg (by subst hf; simp [mkTextChunk, strTruthy])]
      rw [accumAgentContent_go M fs]
      subst hf
      simp [concatList]
    · rw [if_pos (by simp [mkTextChunk, strTruthy, hf])]
      rw [accumAgentContent_go M fs]
      show acc ++ f ++ concatList fs = _
      simp [concatList, String.append_assoc]

theorem accumAgentContent_texts (M : String) (frags : List String) :
    accumAgentContent (frags.map (mkTextChunk M)) = concatList frags := by
  have := accumAgentContent_go M frags ""
  simpa [accumAgentContent] using this

theorem onStreamEnd_assembled (M chat fc c : String) (t t2 : Nat)
    (msgs : List AgentMessage)
    (hfree : ∀ m ∈ msgs, ¬(m.id = M ∧ m.role = Role.agent)) :
    onStreamEnd fc M t2 (msgs ++ [streamingMsg M chat t c])
      = msgs ++ [deliveredMsg M chat t2 fc] := by
  rw [onStreamEnd, List.map_append]
  have h1 : msgs.map (fun m =>
      if m.id == M && m.role == Role.agent then
        { m with content := fc, status := some MsgStatus.delivered, timestamp := t2 }
      else m) = msgs := by
    apply map_ite_of_not
    intro m hm
    rcases Bool.eq_false_or_eq_true (m.id == M && m.role == Role.agent) with hb | hb
    · exact absurd (by simpa using hb) (hfree m hm)
    · exact hb
  rw [h1]
  simp [streamingMsg, deliveredMsg]

theorem onStreamEnd_of_free (fc M : String) (t : Nat) (msgs : List AgentMessage)
    (hfree : ∀ m ∈ msgs, ¬(m.id = M ∧ m.role = Role.agent)) :
    onStreamEnd fc M t msgs = msgs := by
  rw [onStreamEnd]
  apply map_ite_of_not
  intro m hm
  rcases Bool.eq_false_or_eq_true (m.id == M && m.role == Role.agent) with hb | hb
  · exact absurd (by simpa using hb) (hfree m hm)
  · exact hb

/-! ## Edit and resend lemmas -/

theorem editMessageStore_user (mid newC : String) (now : Nat)
    (c : String) (ms₁ : List AgentMessage) (m : AgentMessage)
    (ms₂ : List AgentMessage) (post : MessageStore)
    (hid : m.id = mid) (hrole : m.role = Role.user)
    (hms₁ : ∀ m2 ∈ ms₁, m2.id ≠ mid) :
    ∀ pre : MessageStore, (∀ e ∈ pre, ∀ m2 ∈ e.2, m2.id ≠ mid) →
      editMessageStore mid newC now (pre ++ (c, ms₁ ++ m :: ms₂) :: post)
        = (some { m with content := newC, timestamp := now },
           pre ++ (c, ms₁ ++ { m with content := newC, timestamp := now } :: ms₂) :: post)
  | [], _ => by
    have hfind : (ms₁ ++ m :: ms₂).find? (fun m2 => m2.id == mid) = some m := by
      rw [find?_append_of_not _ _ _ (fun a ha => by simpa using hms₁ a ha)]
      exact List.find?_cons_of_pos _ (by simpa using hid)
    simp only [List.nil_append, editMessageStore, hfind]
    rw [if_pos hrole]
    rw [replaceFirst_append_of_not _ _ _ _ (fun a ha => by simpa using hms₁ a ha)]
    rw [replaceFirst_cons_of _ _ _ _ (by simpa using hid)]
  | e :: pre, hpre => by
    have hnone : e.2.find? (fun m2 => m2.id == mid) = none :=
      List.find?_eq_none.mpr (fun a ha => by
        simpa using hpre e (by simp) a ha)
    simp only [List.cons_append, editMessageStore, hnone, List.append_eq]
    rw [editMessageStore_user mid newC now c ms₁ m ms₂ post hid hrole hms₁ pre
      (fun e2 he2 => hpre e2 (by simp [he2]))]

theorem editMessageStore_skip (mid newC : String) (now : Nat) :
    ∀ store : MessageStore,
      (∀ e ∈ store, ∀ m ∈ e.2, m.id = mid → m.role ≠ Role.user) →
      editMessageStore mid newC now store = (none, store)
  | [], _ => rfl
  | e :: rest, h => by
    cases hfind : e.2.find? (fun m2 => m2.id == mid) with
    | none =>
      simp only [editMessageStore, hfind]
      rw [editMessageStore_skip mid newC now rest
        (fun e2 he2 => h e2 (by simp [he2]))]
    | some m =>
      have hmem : m ∈ e.2 := List.mem_of_find?_eq_some hfind
      have hid : m.id = mid := by simpa using List.find?_some hfind
      have hrole : m.role ≠ Role.user := h e (by simp) m hmem hid
      simp only [editMessageStore, hfind]
      rw [if_neg hrole]
      rw [editMessageStore_skip mid newC now rest
        (fun e2 he2 => h e2 (by simp [he2]))]

theorem findMessage_eq_none (mid : String) :
    ∀ store : MessageStore, (∀ e ∈ store, ∀ m ∈ e.2, m.id ≠ mid) →
      findMessage mid store = none
  | [], _ => rfl
  | e :: rest, h => by
    have hnone : e.2.find? (fun m2 => m2.id == mid) = none :=
      List.find?_eq_none.mpr (fun a ha => by simpa using h e (by simp) a ha)
    simp only [findMessage, hnone]
    exact findMessage_eq_none mid rest (fun e2 he2 => h e2 (by simp [he2]))

theorem findMessage_isSome (mid : String) :
    ∀ store : MessageStore, (∃ e ∈ store, ∃ m ∈ e.2, m.id = mid) →
      ∃ c m, findMessage mid store = some (c, m) ∧ m.id = mid
  | [], h => by simp at h
  | e :: rest, h => by
    cases hfind : e.2.find? (fun m2 => m2.id == mid) with
    | some m =>
      refine ⟨e.1, m, ?_, by simpa using List.find?_some hfind⟩
      simp only [findMessage, hfind]
    | none =>
      have hrest : ∃ e2 ∈ rest, ∃ m ∈ e2.2, m.id = mid := by
        rcases h with ⟨e2, he2, m, hm, hid⟩
        rcases List.mem_cons.mp he2 with rfl | hmem
        · exfalso
          have := List.find?_eq_none.mp hfind m hm
          simp [hid] at this
        · exact ⟨e2, hmem, m, hm, hid⟩
      rcases findMessage_isSome mid rest hrest with ⟨c, m, hfm, hid⟩
      refine ⟨c, m, ?_, hid⟩
      simp only [findMessage, hfind]
      exact hfm

theorem resendMessage_found (mid newId : String) (now : Nat) (st : ServiceState)
    (c : String) (m : AgentMessage)
    (hf : findMessage mid st.mockMessages = some (c, m)) :
    resendMessage mid newId now st
      = (some (reAck c m newId now),
         { mockSessions :=
             touch c now ((reAck c m newId now).content.take 50) st.mockSessions,
           mockMessages := storeAppend c (reAck c m newId now) st.mockMessages }) := by
  simp only [resendMessage, hf]

/-! ## The single-flight lock invariant -/

theorem sendGuardBranch_lockInv (now : Nat) (s : EngineState) (hs : LockInv s) :
    LockInv (sendGuardBranch now s) := by
  unfold sendGuardBranch
  cases hed : s.view.editingMessage with
  | none => exact hs
  | some em =>
    by_cases hc : strTruthy s.view.currentChatId = true
    · simp only [hc, if_pos]
      intro _
      rfl
    · have hc2 : strTruthy s.view.currentChatId = false := by simpa using hc
      simp only [hc2, Bool.false_eq_true, if_false]
      exact hs

theorem step_lockInv {s s2 : EngineState} (h : Step s s2) (hs : LockInv s) :
    LockInv s2 := by
  cases h with
  | selectChat sid s =>
    unfold selectChatStep
    by_cases hb : s.view.isStreaming = true
    · simpa [hb] using hs
    · have hb2 : s.view.isStreaming = false := by simpa using hb
      simp [LockInv, hb2]
  | editStart m s =>
    unfold editStartStep
    by_cases hb : s.view.isStreaming = true
    · simpa [hb] using hs
    · have hb2 : s.view.isStreaming = false := by simpa using hb
      by_cases hr : m.role = Role.user
      · simp [LockInv, hb2, hr]
      · simp only [hb2, Bool.false_eq_true, if_false, hr]
        exact hs
  | cancelEdit s => simp [LockInv, cancelEditStep]
  | sendOk tempId msgId now s =>
    unfold sendOkStep
    by_cases hg : sendGuardFails s.view = true
    · simp only [hg, if_pos]
      exact sendGuardBranch_lockInv now s hs
    · have hg2 : sendGuardFails s.view = false := by simpa using hg
      simp only [hg2, Bool.false_eq_true, if_false]
      cases hv : s.view.editingMessage with
      | none => simp [LockInv, hv]
      | some em => simp [sendGuardFails, hv] at hg2
  | sendFail tempId now s =>
    unfold sendFailStep
    by_cases hg : sendGuardFails s.view = true
    · simp only [hg, if_pos]
      exact sendGuardBranch_lockInv now s hs
    · have hg2 : sendGuardFails s.view = false := by simpa using hg
      simp only [hg2, Bool.false_eq_true, if_false]
      simp [LockInv]
  | streamErr tempId errMsg s => simp [LockInv, streamErrStep]
  | chunk c now s =>
    intro h2
    exact hs h2
  | streamEnd fc mid now s => simp [LockInv, streamEndStep]
  | resend mid newId now s =>
    unfold resendStep
    by_cases hg : (s.view.isStreaming || !(strTruthy s.view.currentChatId)) = true
    · simpa [hg] using hs
    · have hg2 : (s.view.isStreaming || !(strTruthy s.view.currentChatId)) = false := by
        simpa using hg
      simp only [hg2, Bool.false_eq_true, if_false]
      cases hr : (resendMessage mid newId now s.svc).1 with
      | some resp => simp [LockInv]
      | none => simp [LockInv]

theorem reachable_lockInv (s : EngineState) (hs : Reachable s) : LockInv s := by
  rcases hs with ⟨s0, hinit, hsteps⟩
  induction hsteps with
  | refl => exact fun _ => hinit.2
  | tail hab hbc ih => exact step_lockInv hbc ih

/-! ## The claims -/

/-- C1: for every sequence of text chunks delivered for one agent message id,
every prefix of the fold keeps the prior messages untouched and maintains a
single assembled agent message whose content is the concatenation of the
fragments seen so far; the service accumulator computes the same concatenation;
and applying the end-of-stream handler leaves the message carrying exactly that
concatenation with status delivered. -/
theorem c1_stream_assembly (M chat : String) (t : Nat) (frags : List String)
    (msgs : List AgentMessage) (hM : M ≠ "") (hchat : chat ≠ "")
    (hfree : ∀ m ∈ msgs, ¬(m.id = M ∧ m.role = Role.agent)) :
    (∀ k : Nat,
      (((frags.take k).map (mkTextChunk M)).foldl (onStreamUpdate (some chat) t) msgs)
        = msgs ++ (if frags.take k = [] then []
                   else [streamingMsg M chat t (concatList (frags.take k))]))
    ∧ accumAgentContent (frags.map (mkTextChunk M)) = concatList frags
    ∧ onStreamEnd (concatList frags) M t
        ((frags.map (mkTextChunk M)).foldl (onStreamUpdate (some chat) t) msgs)
      = msgs ++ (if frags = [] then []
                 else [deliveredMsg M chat t (concatList frags)]) := by
  refine ⟨?_, accumAgentContent_texts M frags, ?_⟩
  · intro k
    exact fold_texts_from_fresh M chat hM hchat t (frags.take k) msgs hfree
  · rw [fold_texts_from_fresh M chat hM hchat t frags msgs hfree]
    cases frags with
    | nil =>
      simpa using onStreamEnd_of_free (concatList []) M t msgs hfree
    | cons f fs =>
      rw [if_neg (by simp), if_neg (by simp)]
      exact onStreamEnd_assembled M chat (concatList (f :: fs)) (concatList (f :: fs))
        t t msgs hfree

/-- Witness for C1 at the spec's scenario-A chunks. -/
theorem c1_stream_assembly_witness :
    ("a1" ≠ "" ∧ "s1" ≠ "")
    ∧ accumAgentContent (["Hi ", "there!"].map (mkTextChunk "a1"))
        = concatList ["Hi ", "there!"]
    ∧ onStreamEnd (concatList ["Hi ", "there!"]) "a1" 7
        ((["Hi ", "there!"].map (mkTextChunk "a1")).foldl
          (onStreamUpdate (some "s1") 7) [])
      = [] ++ (if (["Hi ", "there!"] : List String) = [] then []
               else [deliveredMsg "a1" "s1" 7 (concatList ["Hi ", "there!"])]) := by
  refine ⟨⟨by decide, by decide⟩, ?_, ?_⟩
  · exact (c1_stream_assembly "a1" "s1" 7 ["Hi ", "there!"] []
      (by decide) (by decide) (by simp)).2.1
  · exact (c1_stream_assembly "a1" "s1" 7 ["Hi ", "there!"] []
      (by decide) (by decide) (by simp)).2.2

/-- C2: the claim says an error chunk marks the in-flight message error, stops
the fold and surfaces the description; the code's onStreamUpdate instead falls
through its TODO branch: the error chunk leaves the list unchanged (the message
stays in status streaming) and a later text chunk still grows the content. -/
theorem c2_error_chunk_unhandled :
    onStreamUpdate (some "s1") 1 [streamingA1] errChunk = [streamingA1]
    ∧ onStreamUpdate (some "s1") 2
        (onStreamUpdate (some "s1") 1 [streamingA1] errChunk)
        (mkTextChunk "a1" "X")
      = [streamingMsg "a1" "s1" 2 "Hi X"] := by
  constructor
  · rfl
  · decide

/-- C3: in every reachable state with the single-flight lock held, a send
intent is a complete no-op (in particular it creates no second optimistic
placeholder and leaves the message list unchanged) and a select-session intent
is a complete no-op (in particular the active session id is unchanged). -/
theorem c3_single_flight_lock (s : EngineState) (hs : Reachable s)
    (hlock : s.view.isStreaming = true) :
    (∀ tempId msgId now, sendOkStep tempId msgId now s = s)
    ∧ (∀ sid, selectChatStep sid s = s) := by
  have hinv : s.view.editingMessage = none := reachable_lockInv s hs hlock
  constructor
  · intro tempId msgId now
    have hg : sendGuardFails s.view = true := by
      simp [sendGuardFails, hlock]
    have h1 : sendOkStep tempId msgId now s = sendGuardBranch now s := by
      unfold sendOkStep
      rw [if_pos hg]
    rw [h1]
    simp only [sendGuardBranch, hinv]
  · intro sid
    unfold selectChatStep
    rw [if_pos hlock]

/-- Witness for C3: a reachable locked state, built by one send from a fresh
mount; in it a second send and a select-session intent change nothing. -/
theorem c3_single_flight_lock_witness :
    (Reachable (sendOkStep "t1" "m1" 5 engine0)
      ∧ (sendOkStep "t1" "m1" 5 engine0).view.isStreaming = true)
    ∧ sendOkStep "t2" "m2" 9 (sendOkStep "t1" "m1" 5 engine0)
        = sendOkStep "t1" "m1" 5 engine0
    ∧ selectChatStep "s2" (sendOkStep "t1" "m1" 5 engine0)
        = sendOkStep "t1" "m1" 5 engine0 := by
  have hr : Reachable (sendOkStep "t1" "m1" 5 engine0) :=
    ⟨engine0, ⟨rfl, rfl⟩,
     Relation.ReflTransGen.single (Step.sendOk "t1" "m1" 5 engine0)⟩
  have hl : (sendOkStep "t1" "m1" 5 engine0).view.isStreaming = true := by decide
  exact ⟨⟨hr, hl⟩,
    (c3_single_flight_lock _ hr hl).1 "t2" "m2" 9,
    (c3_single_flight_lock _ hr hl).2 "s2"⟩

/-- C4 counterexample: in a state with the lock held and an edit of the stored
user message m1msg in progress (draft "b"), completing the edit is not dropped:
the stored message's content becomes "b" and its timestamp advances to 7,
contradicting the claim that it leaves every stored message's content and
timestamp unchanged. -/
theorem c4_edit_during_lock_counterexample :
    lockedEditState.view.isStreaming = true
    ∧ lockedEditState.view.editingMessage.isSome = true
    ∧ getMessages (sendOkStep "t1" "n1" 7 lockedEditState).svc.mockMessages "s1"
        = [{ m1msg with content := "b", timestamp := 7 }] := by
  refine ⟨rfl, rfl, ?_⟩
  decide

/-- C4 amended: an edit-save intent issued while the single-flight lock is held
is applied rather than dropped — the edit branch does not consult the lock, so
for every state with the lock held, an edit of a stored user message in
progress, and a truthy current chat id, completing the edit replaces that
message's content with the draft and stamps a new timestamp (leaving the
directory and the lock untouched and clearing the composer), exactly as when
unlocked. -/
theorem c4_edit_during_lock_applies (s : EngineState) (em : AgentMessage)
    (tempId msgId : String) (now : Nat)
    (c : String) (ms₁ ms₂ : List AgentMessage) (m : AgentMessage)
    (pre post : MessageStore)
    (hlock : s.view.isStreaming = true)
    (hedit : s.view.editingMessage = some em)
    (hchat : strTruthy s.view.currentChatId = true)
    (hstore : s.svc.mockMessages = pre ++ (c, ms₁ ++ m :: ms₂) :: post)
    (hid : m.id = em.id) (hrole : m.role = Role.user)
    (hpre : ∀ e ∈ pre, ∀ m2 ∈ e.2, m2.id ≠ em.id)
    (hms₁ : ∀ m2 ∈ ms₁, m2.id ≠ em.id) :
    (sendOkStep tempId msgId now s).svc.mockMessages
      = pre ++ (c, ms₁ ++ { m with content := s.view.newMessage, timestamp := now }
          :: ms₂) :: post
    ∧ (sendOkStep tempId msgId now s).svc.mockSessions = s.svc.mockSessions
    ∧ (sendOkStep tempId msgId now s).view.editingMessage = none
    ∧ (sendOkStep tempId msgId now s).view.newMessage = ""
    ∧ (sendOkStep tempId msgId now s).view.isStreaming = s.view.isStreaming := by
  have hg : sendGuardFails s.view = true := by
    simp [sendGuardFails, hlock]
  have h1 : sendOkStep tempId msgId now s = sendGuardBranch now s := by
    unfold sendOkStep
    rw [if_pos hg]
  have hsvc : editMessage em.id s.view.newMessage now s.svc
      = (some { m with content := s.view.newMessage, timestamp := now },
         { s.svc with mockMessages := pre ++ (c, ms₁
             ++ { m with content := s.view.newMessage, timestamp := now } :: ms₂)
             :: post }) := by
    unfold editMessage
    rw [hstore, editMessageStore_user em.id s.view.newMessage now c ms₁ m ms₂ post
      hid hrole hms₁ pre hpre]
  have h2 : sendGuardBranch now s
      = { svc := { s.svc with mockMessages := pre ++ (c, ms₁
            ++ { m with content := s.view.newMessage, timestamp := now } :: ms₂)
            :: post },
          view := { s.view with
            messages := s.view.messages.map (fun mm =>
              if mm.id == m.id
              then { m with content := s.view.newMessage, timestamp := now }
              else mm),
            newMessage := "", editingMessage := none } } := by
    unfold sendGuardBranch
    rw [hedit]
    simp [hchat, hsvc]
  rw [h1, h2]
  exact ⟨rfl, rfl, rfl, rfl, rfl⟩

/-- Witness for the amended C4 at the concrete locked editing state. -/
theorem c4_edit_during_lock_witness :
    (lockedEditState.view.isStreaming = true
      ∧ lockedEditState.view.editingMessage = some m1msg)
    ∧ (sendOkStep "t1" "n1" 7 lockedEditState).svc.mockMessages
        = [] ++ ("s1", [] ++ { m1msg with content := "b", timestamp := 7 } :: []) :: []
    ∧ (sendOkStep "t1" "n1" 7 lockedEditState).svc.mockSessions
        = lockedEditState.svc.mockSessions
    ∧ (sendOkStep "t1" "n1" 7 lockedEditState).view.editingMessage = none := by
  have h := c4_edit_during_lock_applies lockedEditState m1msg "t1" "n1" 7
    "s1" [] [] m1msg [] [] rfl rfl (by decide) rfl rfl rfl (by simp) (by simp)
  exact ⟨⟨rfl, rfl⟩, h.1, h.2.1, h.2.2.1⟩

/-- C5: when the reply channel fails right after the optimistic placeholder is
created, the catch branch leaves exactly one added message — the placeholder,
status error, original content plus the appended failure note — releases the
lock, touches no session, and leaves the service state unchanged. -/
theorem c5_channel_failure (s : EngineState) (tempId : String) (now : Nat)
    (hguard : sendGuardFails s.view = false)
    (hfresh : ∀ m ∈ s.view.messages, m.id ≠ tempId) :
    sendFailStep tempId now s
      = { svc := s.svc,
          view := { s.view with
            messages := s.view.messages
              ++ [{ id := tempId, chatId := s.view.currentChatId.getD "",
                    role := Role.user,
                    content := s.view.newMessage ++ "\n(Failed to send)",
                    timestamp := now, status := some MsgStatus.error }],
            newMessage := "", isStreaming := false } }
    ∧ (sendFailStep tempId now s).view.chatSessions = s.view.chatSessions
    ∧ (sendFailStep tempId now s).svc = s.svc
    ∧ (sendFailStep tempId now s).view.isStreaming = false := by
  have hmap : (s.view.messages
        ++ [({ id := tempId, chatId := s.view.currentChatId.getD "",
               role := Role.user, content := s.view.newMessage,
               timestamp := now, status := some MsgStatus.pending } : AgentMessage)]).map
        (fun m => if m.id == tempId then
          { m with status := some MsgStatus.error,
                   content := m.content ++ "\n(Failed to send)" }
          else m)
      = s.view.messages
        ++ [{ id := tempId, chatId := s.view.currentChatId.getD "",
              role := Role.user,
              content := s.view.newMessage ++ "\n(Failed to send)",
              timestamp := now, status := some MsgStatus.error }] := by
    rw [List.map_append]
    rw [map_ite_of_not _ _ _ (fun m hm => by simpa using hfresh m hm)]
    simp
  have h1 : sendFailStep tempId now s
      = { svc := s.svc,
          view := { s.view with
            messages := s.view.messages
              ++ [{ id := tempId, chatId := s.view.currentChatId.getD "",
                    role := Role.user,
                    content := s.view.newMessage ++ "\n(Failed to send)",
                    timestamp := now, status := some MsgStatus.error }],
            newMessage := "", isStreaming := false } } := by
    unfold sendFailStep
    rw [if_neg (by simp [hguard])]
    simp only [hmap]
  exact ⟨h1, by rw [h1], by rw [h1], by rw [h1]⟩

/-- Witness for C5 at a fresh mount with draft "hello". -/
theorem c5_channel_failure_witness :
    (sendGuardFails engine0.view = false)
    ∧ sendFailStep "t9" 3 engine0
      = { svc := engine0.svc,
          view := { engine0.view with
            messages := engine0.view.messages
              ++ [{ id := "t9", chatId := engine0.view.currentChatId.getD "",
                    role := Role.user,
                    content := engine0.view.newMessage ++ "\n(Failed to send)",
                    timestamp := 3, status := some MsgStatus.error }],
            newMessage := "", isStreaming := false } } := by
  refine ⟨by decide, ?_⟩
  exact (c5_channel_failure engine0 "t9" 3 (by decide) (by simp [engine0])).1

/-- C6: any sequence of directory touches applied to a sorted session list
keeps it sorted by lastMessageAt descending; the re-sort a touch performs is
stable (the sessions carrying any fixed lastMessageAt keep their prior
relative order); and a touch for a session id the directory does not list is
a silent no-op. -/
theorem c6_directory_ordering :
    (∀ (l : List AgentChatSession) (ops : List (String × Nat × String)),
        SortedDesc l →
        SortedDesc (ops.foldl (fun acc op => touch op.1 op.2.1 op.2.2 acc) l))
    ∧ (∀ (l : List AgentChatSession) (t : Nat),
        (sortSessions l).filter (fun s => s.lastMessageAt == t)
          = l.filter (fun s => s.lastMessageAt == t))
    ∧ (∀ (sid : String) (ts : Nat) (sn : String) (l : List AgentChatSession),
        (∀ s ∈ l, s.id ≠ sid) → touch sid ts sn l = l) := by
  refine ⟨?_, sortSessions_stable, touch_of_not_mem⟩
  intro l ops
  induction ops generalizing l with
  | nil => exact fun h => h
  | cons op rest ih =>
    intro h
    exact ih _ (touch_sorted op.1 op.2.1 op.2.2 l h)

/-- Witness for C6: one real touch followed by a no-op touch on a singleton
directory. -/
theorem c6_directory_ordering_witness :
    SortedDesc [sessA]
    ∧ SortedDesc ([("s1", 9, "x"), ("zz", 1, "y")].foldl
        (fun acc op => touch op.1 op.2.1 op.2.2 acc) [sessA])
    ∧ (∀ s ∈ [sessA], s.id ≠ "zz")
    ∧ touch "zz" 5 "q" [sessA] = [sessA] := by
  have hs : SortedDesc [sessA] := by
    simp [SortedDesc]
  exact ⟨hs,
    c6_directory_ordering.1 [sessA] [("s1", 9, "x"), ("zz", 1, "y")] hs,
    by decide,
    c6_directory_ordering.2.2 "zz" 5 "q" [sessA] (by decide)⟩

/-- C7: the edit operation succeeds only for user-authored messages — editing
the unique stored user message with the given id replaces its content, stamps
the new timestamp, keeps its id and role, and leaves the session directory
(and hence every lastMessageAt) untouched; when every stored occurrence of the
id is not user-authored (in particular for an agent message or an unknown id),
edit returns null and the whole service state is unchanged. -/
theorem c7_edit_only_user (st : ServiceState) (mid newC : String) (now : Nat) :
    (∀ (pre post : MessageStore) (c : String) (ms₁ ms₂ : List AgentMessage)
        (m : AgentMessage),
        st.mockMessages = pre ++ (c, ms₁ ++ m :: ms₂) :: post →
        m.id = mid → m.role = Role.user →
        (∀ e ∈ pre, ∀ m2 ∈ e.2, m2.id ≠ mid) →
        (∀ m2 ∈ ms₁, m2.id ≠ mid) →
        editMessage mid newC now st
          = (some { m with content := newC, timestamp := now },
             { mockSessions := st.mockSessions,
               mockMessages := pre ++ (c, ms₁
                 ++ { m with content := newC, timestamp := now } :: ms₂) :: post }))
    ∧ ((∀ e ∈ st.mockMessages, ∀ m ∈ e.2, m.id = mid → m.role ≠ Role.user) →
        editMessage mid newC now st = (none, st)) := by
  constructor
  · intro pre post c ms₁ ms₂ m hst hid hrole hpre hms₁
    unfold editMessage
    rw [hst, editMessageStore_user mid newC now c ms₁ m ms₂ post hid hrole hms₁ pre hpre]
  · intro h
    unfold editMessage
    rw [editMessageStore_skip mid newC now st.mockMessages h]

/-- Witness for C7: editing the stored user message succeeds and leaves the
directory alone; editing the stored agent message is refused with no change. -/
theorem c7_edit_only_user_witness :
    editMessage "m1" "zz" 9 svc7
      = (some { m1msg with content := "zz", timestamp := 9 },
         { mockSessions := svc7.mockSessions,
           mockMessages := [] ++ ("s1", []
             ++ { m1msg with content := "zz", timestamp := 9 } :: []) :: [] })
    ∧ editMessage "a9" "zz" 9 svc7b = (none, svc7b) := by
  constructor
  · exact (c7_edit_only_user svc7 "m1" "zz" 9).1 [] [] "s1" [] [] m1msg
      rfl rfl rfl (by simp) (by simp)
  · exact (c7_edit_only_user svc7b "a9" "zz" 9).2 (by decide)

/-- C8 counterexample: the id g1 is stored (under chat id ghost, which the
directory does not list) and resend succeeds, yet afterwards the directory is
still empty — no session had its lastMessageAt updated to the new message's
timestamp, contrary to the claim's universal promise. -/
theorem c8_resend_counterexample :
    (∃ e ∈ ghostState.mockMessages, ∃ m ∈ e.2, m.id = "g1")
    ∧ (resendMessage "g1" "n1" 5 ghostState).1.isSome = true
    ∧ (resendMessage "g1" "n1" 5 ghostState).2.mockSessions = [] := by
  decide

/-- C8 amended: for every stored message id, resend appends exactly one new
agent-authored message to the owning chat (other chats unchanged); when the
owning chat id is listed in the directory, that session's lastMessageAt is
updated to the new message's timestamp and its snippet to the new content's
leading 50 characters, while an unlisted owning chat leaves the directory
unchanged; for an id not stored anywhere, resend returns null and changes
neither the store nor the directory. -/
theorem c8_resend_updates (st : ServiceState) (mid newId : String) (now : Nat) :
    (∀ (c : String) (m : AgentMessage),
        findMessage mid st.mockMessages = some (c, m) →
        (resendMessage mid newId now st).1 = some (reAck c m newId now)
        ∧ (reAck c m newId now).role = Role.agent
        ∧ getMessages (resendMessage mid newId now st).2.mockMessages c
            = getMessages st.mockMessages c ++ [reAck c m newId now]
        ∧ (∀ c2, c2 ≠ c →
            getMessages (resendMessage mid newId now st).2.mockMessages c2
              = getMessages st.mockMessages c2)
        ∧ ((∃ sess ∈ st.mockSessions, sess.id = c) →
            ∃ sess ∈ (resendMessage mid newId now st).2.mockSessions,
              sess.id = c ∧ sess.lastMessageAt = now
              ∧ sess.lastMessageSnippet
                  = some ((reAck c m newId now).content.take 50))
        ∧ ((∀ sess ∈ st.mockSessions, sess.id ≠ c) →
            (resendMessage mid newId now st).2.mockSessions = st.mockSessions))
    ∧ ((∀ e ∈ st.mockMessages, ∀ m ∈ e.2, m.id ≠ mid) →
        resendMessage mid newId now st = (none, st)) := by
  constructor
  · intro c m hf
    have heq := resendMessage_found mid newId now st c m hf
    rw [heq]
    refine ⟨rfl, rfl, ?_, ?_, ?_, ?_⟩
    · exact getMessages_storeAppend_self c _ st.mockMessages
    · intro c2 hne
      exact getMessages_storeAppend_other c c2 _ hne st.mockMessages
    · intro hex
      exact touch_exists c now _ st.mockSessions hex
    · intro hnone
      exact touch_of_not_mem c now _ st.mockSessions hnone
  · intro h
    unfold resendMessage
    rw [findMessage_eq_none mid st.mockMessages h]

/-- Witness for the amended C8 at a stored user message whose session is
listed. -/
theorem c8_resend_updates_witness :
    (resendMessage "mB" "nB" 9 svc8).1 = some (reAck "sB" userMsgB "nB" 9)
    ∧ getMessages (resendMessage "mB" "nB" 9 svc8).2.mockMessages "sB"
        = getMessages svc8.mockMessages "sB" ++ [reAck "sB" userMsgB "nB" 9]
    ∧ (∃ sess ∈ (resendMessage "mB" "nB" 9 svc8).2.mockSessions,
        sess.id = "sB" ∧ sess.lastMessageAt = 9
        ∧ sess.lastMessageSnippet
            = some ((reAck "sB" userMsgB "nB" 9).content.take 50)) := by
  have h := (c8_resend_updates svc8 "mB" "nB" 9).1 "sB" userMsgB (by decide)
  exact ⟨h.1, h.2.2.1, h.2.2.2.2.1 (by decide)⟩

/-- C9: sendMessage never validates the chat id against the directory — for a
chat id absent from both the store and the directory it still succeeds,
creating a fresh message list holding exactly the user message (observable
through getMessages), while the session directory is left entirely
unchanged. -/
theorem c9_send_unknown_chat (st : ServiceState)
    (chatId content msgId : String) (now : Nat)
    (hstore : ∀ e ∈ st.mockMessages, e.1 ≠ chatId)
    (hdir : ∀ s ∈ st.mockSessions, s.id ≠ chatId) :
    (sendMessageSync chatId content msgId now st).1
      = { id := msgId, chatId := chatId, role := Role.user, content := content,
          timestamp := now, status := some MsgStatus.sent }
    ∧ getMessages (sendMessageSync chatId content msgId now st).2.mockMessages chatId
      = [(sendMessageSync chatId content msgId now st).1]
    ∧ (sendMessageSync chatId content msgId now st).2.mockSessions
      = st.mockSessions := by
  refine ⟨rfl, ?_, ?_⟩
  · have h2 : getMessages st.mockMessages chatId = [] := by
      unfold getMessages getEntry
      rw [List.find?_eq_none.mpr (fun e he => by simpa using hstore e he)]
      rfl
    show getMessages (storeAppend chatId _ st.mockMessages) chatId = _
    rw [getMessages_storeAppend_self chatId _ st.mockMessages, h2]
    rfl
  · show touch chatId now _ st.mockSessions = st.mockSessions
    exact touch_of_not_mem chatId now _ st.mockSessions hdir

/-- Witness for C9 on an empty service state. -/
theorem c9_send_unknown_chat_witness :
    (sendMessageSync "ghost2" "hi" "m9" 3
        { mockSessions := [], mockMessages := [] }).1
      = { id := "m9", chatId := "ghost2", role := Role.user, content := "hi",
          timestamp := 3, status := some MsgStatus.sent }
    ∧ getMessages (sendMessageSync "ghost2" "hi" "m9" 3
        { mockSessions := [], mockMessages := [] }).2.mockMessages "ghost2"
      = [(sendMessageSync "ghost2" "hi" "m9" 3
          { mockSessions := [], mockMessages := [] }).1]
    ∧ (sendMessageSync "ghost2" "hi" "m9" 3
        { mockSessions := [], mockMessages := [] }).2.mockSessions = [] := by
  exact c9_send_unknown_chat { mockSessions := [], mockMessages := [] }
    "ghost2" "hi" "m9" 3 (by simp) (by simp)

/-- C10: unlike edit, resend places no restriction on the stored message's
author role — whenever some chat stores a message with the id (user, agent or
system authored alike), resend returns an agent-authored acknowledgment
appended to that chat; only a missing id yields null, with no state change. -/
theorem c10_resend_any_role (st : ServiceState) (mid newId : String) (now : Nat) :
    ((∃ e ∈ st.mockMessages, ∃ m ∈ e.2, m.id = mid) →
      ∃ resp, (resendMessage mid newId now st).1 = some resp
        ∧ resp.role = Role.agent
        ∧ getMessages (resendMessage mid newId now st).2.mockMessages resp.chatId
            = getMessages st.mockMessages resp.chatId ++ [resp])
    ∧ ((∀ e ∈ st.mockMessages, ∀ m ∈ e.2, m.id ≠ mid) →
        resendMessage mid newId now st = (none, st)) := by
  constructor
  · intro hex
    rcases findMessage_isSome mid st.mockMessages hex with ⟨c, m, hf, _⟩
    have heq := resendMessage_found mid newId now st c m hf
    refine ⟨reAck c m newId now, ?_, rfl, ?_⟩
    · rw [heq]
    · rw [heq]
      exact getMessages_storeAppend_self c _ st.mockMessages
  · intro h
    unfold resendMessage
    rw [findMessage_eq_none mid st.mockMessages h]

/-- Witness for C10 on a stored system-authored message, and on a missing
id. -/
theorem c10_resend_any_role_witness :
    (∃ resp, (resendMessage "y1" "n2" 4 svc10).1 = some resp
      ∧ resp.role = Role.agent
      ∧ getMessages (resendMessage "y1" "n2" 4 svc10).2.mockMessages resp.chatId
          = getMessages svc10.mockMessages resp.chatId ++ [resp])
    ∧ resendMessage "nope" "n3" 4 svc10 = (none, svc10) := by
  exact ⟨(c10_resend_any_role svc10 "y1" "n2" 4).1 (by decide),
    (c10_resend_any_role svc10 "nope" "n3" 4).2 (by decide)⟩

end AgentChat
